import Mathlib

/-!
Verification development for the dynamic-schema product catalog
(`product_catalog.py`): a single SQLite-backed `product` table whose column
set is mutated at runtime (add / drop / modify column via a shadow-table
rebuild), together with an append-only per-field version ledger and a
field-level rollback operation.

The Python source operates on an SQLite database through `sqlite3`.  The
shallow embedding below models:

* SQLite values dynamically (`Value`): NULL, INTEGER, TEXT;
* a table as its `PRAGMA table_info` column descriptors plus its rows
  (rows are association lists from column name to value);
* a database as an association list from table name to table;
* the connection/transaction behaviour of Python `sqlite3` with the default
  `isolation_level` (the setting the source uses): an implicit `BEGIN` is
  issued only before an INSERT/UPDATE/DELETE/REPLACE statement when no
  transaction is open; any other statement (CREATE/DROP/ALTER TABLE, PRAGMA)
  executed while no transaction is open runs in autocommit mode and its
  effect is durable at once.  The `with conn:` block used throughout the
  source commits on normal exit and rolls back to the last commit point when
  the block is left via an exception.
-/

/-- An SQLite value as the Python code sees it: `None`, `int`, `str` or
`float`.  REAL values are modelled as exact rationals: they arise here only
from SQLite's affinity conversion of finite decimal literals, and the IEEE
double rounding of the storage layer is elided (the claims never depend on
sub-double precision). -/
inductive Value where
  | null
  | intV (i : Int)
  | textV (s : String)
  | realV (q : ℚ)
deriving DecidableEq, Repr

/-- One row of `PRAGMA table_info`: `(cid, name, type, notnull, dflt_value, pk)`
without the redundant `cid` ordinal. -/
structure ColInfo where
  name : String
  ctype : String
  notnull : Bool
  dflt : Option String
  pk : Bool
deriving DecidableEq, Repr

/-- The `(name, type, dflt)` triples handed to `recreate_table_with_schema`. -/
structure ColSpec where
  name : String
  ctype : String
  dflt : Option String
deriving DecidableEq, Repr

/-- A stored row: association list from column name to value. -/
abbrev Row := List (String × Value)

/-- A physical table: its schema columns and its rows. -/
structure Table where
  cols : List ColInfo
  rows : List Row
deriving DecidableEq, Repr

/-- The database: association list from table name to table. -/
abbrev DB := List (String × Table)

/-- Association-list lookup keyed by strings (first match wins, as in SQL
name resolution and Python dict access). -/
def alook {α : Type} : List (String × α) → String → Option α
  | [], _ => none
  | (k, v) :: rest, n => if k = n then some v else alook rest n

/-- Reading a column of a row; a missing column reads as NULL (this matches
both `dict.get` returning `None` and SQL semantics for absent values). -/
def rowGet (r : Row) (n : String) : Value :=
  (alook r n).getD .null

/-- `sanitize_identifier`: every character outside `[0-9A-Za-z_]` becomes
an underscore (`re.sub` applied character by character). -/
def sanitize_identifier (s : String) : String :=
  ⟨s.toList.map (fun c => if c.isAlphanum || c = '_' then c else '_')⟩

/-- Python `str.strip()`: drop leading and trailing whitespace. -/
def pyStrip (s : String) : String :=
  ⟨((s.toList.dropWhile Char.isWhitespace).reverse.dropWhile Char.isWhitespace).reverse⟩

/-- Python `str.upper()` on the ASCII identifiers and type names at play. -/
def pyUpper (s : String) : String :=
  ⟨s.toList.map Char.toUpper⟩

/-- Substring test on lists of characters (for Python's `'INT' in s` and
SQLite's case-insensitive type matching). -/
def subOfList (pat : List Char) : List Char → Bool
  | [] => pat.isEmpty
  | c :: rest => pat.isPrefixOf (c :: rest) || subOfList pat rest

/-- Python's `pat in s` on strings. -/
def strHasSub (s pat : String) : Bool :=
  subOfList pat.toList s.toList

/-- Value of a digit string. -/
def digitsVal (l : List Char) : Nat :=
  l.foldl (fun a c => a * 10 + (c.toNat - '0'.toNat)) 0

/-- SQLite column affinities. -/
inductive Affinity where
  | integer | text | blob | real | numeric
deriving DecidableEq, Repr

/-- The affinity SQLite derives from a declared column type, applying its
documented substring rules in order: INT → INTEGER; CHAR/CLOB/TEXT → TEXT;
BLOB or no type → BLOB; REAL/FLOA/DOUB → REAL; anything else → NUMERIC. -/
def affinityOf (ctype : String) : Affinity :=
  let u := pyUpper ctype
  if strHasSub u "INT" then .integer
  else if strHasSub u "CHAR" || strHasSub u "CLOB" || strHasSub u "TEXT" then .text
  else if u = "" || strHasSub u "BLOB" then .blob
  else if strHasSub u "REAL" || strHasSub u "FLOA" || strHasSub u "DOUB" then .real
  else .numeric

/-- Exponent suffix of an SQLite numeric literal. -/
def sqlParseExp (base : ℚ) (l : List Char) : Option (Bool × ℚ) :=
  let es : Int := match l with
    | '-' :: _ => -1
    | _ => 1
  let l1 := match l with
    | '-' :: tl => tl
    | '+' :: tl => tl
    | tl => tl
  if l1 ≠ [] ∧ l1.all Char.isDigit then
    some (false,
      if es = 1 then base * (10 : ℚ) ^ digitsVal l1 else base / (10 : ℚ) ^ digitsVal l1)
  else none

/-- SQLite's test for a well-formed numeric literal, as used by affinity
conversion: optional surrounding whitespace, optional sign, digits with an
optional fractional part and an optional exponent.  Returns the exact value
and whether the literal has integer form (no point, no exponent).
(Hexadecimal literals and 64-bit overflow behaviour are outside the
modelled fragment.) -/
def sqlParseNum (s : String) : Option (Bool × ℚ) :=
  let cs := (pyStrip s).toList
  let sgn : Int := match cs with
    | '-' :: _ => -1
    | _ => 1
  let cs1 := match cs with
    | '-' :: tl => tl
    | '+' :: tl => tl
    | tl => tl
  let ip := cs1.takeWhile Char.isDigit
  match cs1.dropWhile Char.isDigit with
  | [] => if ip ≠ [] then some (true, ((sgn * digitsVal ip : Int) : ℚ)) else none
  | '.' :: rest2 =>
    let fp := rest2.takeWhile Char.isDigit
    if ip = [] ∧ fp = [] then none
    else
      let base : ℚ := ((sgn * (digitsVal ip * 10 ^ fp.length + digitsVal fp) : Int) : ℚ) /
        (10 : ℚ) ^ fp.length
      match rest2.dropWhile Char.isDigit with
      | [] => some (false, base)
      | 'e' :: rest3 => sqlParseExp base rest3
      | 'E' :: rest3 => sqlParseExp base rest3
      | _ => none
  | 'e' :: rest3 => if ip ≠ [] then sqlParseExp ((sgn * digitsVal ip : Int) : ℚ) rest3 else none
  | 'E' :: rest3 => if ip ≠ [] then sqlParseExp ((sgn * digitsVal ip : Int) : ℚ) rest3 else none
  | _ => none

/-- Smallest decimal exponent `k` with `q * 10 ^ k` integral (searched up to
a bound far beyond anything the catalog produces). -/
def findDecExp (q : ℚ) : Option Nat :=
  (List.range 31).find? (fun k => (q * (10 : ℚ) ^ k).den == 1)

/-- `n` rendered with exactly `k` digits. -/
def zeroPad (k n : Nat) : String :=
  let s := toString n
  ⟨List.replicate (k - s.length) '0' ++ s.toList⟩

/-- Shortest-decimal rendering of a REAL value, as both SQLite's text
conversion and Python `str()` print the doubles arising from the decimal
literals modelled here (`1.5` → `"1.5"`, `7` → `"7.0"`).  Non-decimal
rationals cannot arise from the modelled conversions; they get an arbitrary
fallback rendering. -/
def renderReal (q : ℚ) : String :=
  match findDecExp q with
  | some 0 => (if q < 0 then "-" else "") ++ toString q.num.natAbs ++ ".0"
  | some (k + 1) =>
    let m := (q * (10 : ℚ) ^ (k + 1)).num.natAbs
    (if q < 0 then "-" else "") ++ toString (m / 10 ^ (k + 1)) ++ "." ++
      zeroPad (k + 1) (m % 10 ^ (k + 1))
  | none => toString q.num ++ "r" ++ toString q.den

/-- Storing a value into a column of INTEGER or NUMERIC affinity: text that
is a well-formed numeric literal becomes a number, and numbers representable
exactly as integers are stored as integers (`'007'` → `7`, `'7.0'` → `7`,
`'1.50'` → `1.5`); other text is kept verbatim. -/
def numericCoerce : Value → Value
  | .textV s =>
    match sqlParseNum s with
    | some (_, q) => if q.den = 1 then .intV q.num else .realV q
    | none => .textV s
  | .realV q => if q.den = 1 then .intV q.num else .realV q
  | v => v

/-- Storing a value into a column of REAL affinity: like NUMERIC, but
integers are forced into floating point. -/
def realCoerce : Value → Value
  | .textV s =>
    match sqlParseNum s with
    | some (_, q) => .realV q
    | none => .textV s
  | .intV i => .realV i
  | v => v

/-- The coercion SQLite applies to a value as it is stored into a column —
by INSERT, INSERT..SELECT and UPDATE alike — determined by the column's
affinity.  NULL is never coerced; TEXT affinity renders numbers as text;
BLOB affinity stores everything verbatim. -/
def applyAffinity : Affinity → Value → Value
  | _, .null => .null
  | .text, .intV i => .textV (toString i)
  | .text, .realV q => .textV (renderReal q)
  | .text, v => v
  | .blob, v => v
  | .integer, v => numericCoerce v
  | .numeric, v => numericCoerce v
  | .real, v => realCoerce v

/-- Lookup of a table by name (`sqlite_master` resolution). -/
def getTable : DB → String → Option Table
  | [], _ => none
  | (m, t) :: rest, n => if m = n then some t else getTable rest n

/-- Installing a freshly created table (`CREATE TABLE` only succeeds when the
name is unused, so cons introduces no shadowing). -/
def addTable (db : DB) (n : String) (t : Table) : DB :=
  (n, t) :: db

/-- `DROP TABLE n`: every entry named `n` disappears. -/
def delTable (db : DB) (n : String) : DB :=
  db.filter (fun p => p.1 ≠ n)

/-- Rewrite the table named `n` in place. -/
def mapModify (db : DB) (n : String) (f : Table → Table) : DB :=
  db.map (fun p => if p.1 = n then (p.1, f p.2) else p)

/-- Replace the rows of table `n`. -/
def setRows (db : DB) (n : String) (rs : List Row) : DB :=
  mapModify db n (fun t => { t with rows := rs })

/-- The column descriptor produced by the `cols_defs` string assembled in
`recreate_table_with_schema`: `"{name} {ctype}"` plus `DEFAULT '{dflt}'` only
when the default is neither `None` nor the empty string.  No `NOT NULL` and
no `PRIMARY KEY` clause is ever emitted, so those markers are lost. -/
def specToInfo (cs : ColSpec) : ColInfo :=
  { name := cs.name
    ctype := cs.ctype
    notnull := false
    dflt := match cs.dflt with
      | none => none
      | some d => if d = "" then none else some d
    pk := false }

/-- The value a column takes when an INSERT does not mention it: its declared
DEFAULT (a quoted string literal in the generated SQL) or NULL. -/
def colDefault (ci : ColInfo) : Value :=
  match ci.dflt with
  | none => .null
  | some d => .textV d

/-- `CREATE TABLE n (cols...)`: fails when the column list is empty (a
syntax error), when a table of that name already exists, or when a column
name is repeated. -/
def createTableStmt (n : String) (specs : List ColSpec) (db : DB) : Option DB :=
  if specs = [] then none
  else if (getTable db n).isSome then none
  else if (specs.map ColSpec.name).Nodup then
    some (addTable db n ⟨specs.map specToInfo, []⟩)
  else none

/-- `DROP TABLE n`: fails when the table does not exist. -/
def dropTableStmt (n : String) (db : DB) : Option DB :=
  match getTable db n with
  | none => none
  | some _ => some (delTable db n)

/-- `ALTER TABLE old RENAME TO new`: fails when the source is missing or the
target name is taken. -/
def renameTableStmt (old new : String) (db : DB) : Option DB :=
  match getTable db old with
  | none => none
  | some t =>
    if (getTable db new).isSome then none
    else some (addTable (delTable db old) new t)

/-- The row written by
`INSERT INTO temp (common...) SELECT common... FROM old` for one source row:
columns listed in `common` copy the source value, all other columns of the
target take their default — and every stored value, copied or defaulted, is
subject to the affinity coercion of the *target* column's declared type
(so a retype-modify converts retained values, e.g. TEXT `'007'` landing in
an INTEGER column becomes `7`). -/
def copyRow (tcols : List ColInfo) (common : List String) (r : Row) : Row :=
  tcols.map (fun ci =>
    (ci.name, applyAffinity (affinityOf ci.ctype)
      (if ci.name ∈ common then rowGet r ci.name else colDefault ci)))

/-- The bulk copy statement of the rebuild; the per-row, per-column affinity
coercion lives in `copyRow`. -/
def insertCopyStmt (src tgt : String) (common : List String) (db : DB) : Option DB :=
  match getTable db src, getTable db tgt with
  | some s, some t => some (setRows db tgt (t.rows ++ s.rows.map (copyRow t.cols common)))
  | _, _ => none

/-- A connection as Python `sqlite3` maintains it: the last committed
database, the working (possibly uncommitted) database, and whether an
implicit transaction is open. -/
structure Conn where
  committed : DB
  current : DB
  inTxn : Bool
deriving Repr

/-- Failure injection point for the rebuild, mirroring "any step of the
table rebuild fails": the failure occurs when the named statement is about
to run.  `noFail` is the unimpeded execution. -/
inductive FailPoint where
  | atCreate | atCopy | atDrop | atRename | noFail
deriving DecidableEq, Repr

/-- Run a non-DML statement (CREATE/DROP/ALTER/PRAGMA).  Such a statement
never opens the implicit transaction; outside a transaction it executes in
autocommit mode, so its effect is committed at once.  A failing statement
raises, and the surrounding `with conn:` block rolls the connection back to
the last commit point; the error value is the database the caller then
observes. -/
def execDDL (c : Conn) (stmt : DB → Option DB) : Except DB Conn :=
  match stmt c.current with
  | none => .error c.committed
  | some db' =>
    if c.inTxn then .ok ⟨c.committed, db', true⟩
    else .ok ⟨db', db', false⟩

/-- Run a DML statement (here: the bulk INSERT).  Python `sqlite3` issues an
implicit `BEGIN` before it when no transaction is open, so after it the
connection is inside a transaction whose rollback point is the previously
committed state. -/
def execDML (c : Conn) (stmt : DB → Option DB) : Except DB Conn :=
  match stmt c.current with
  | none => .error c.committed
  | some db' => .ok ⟨c.committed, db', true⟩

/-- Injected failure: when the run's fail point is the current step, the
step raises instead of running, and the `with conn:` rollback leaves the
last committed database. -/
def inject (fp here : FailPoint) (c : Conn) : Except DB Conn :=
  if fp = here then .error c.committed else .ok c

/-- `recreate_table_with_schema(table_name, new_columns)` with an injected
failure point.  Statement sequence of the source: CREATE temp table, PRAGMA
to compute the old columns, bulk INSERT of the name-intersection (only when
the intersection is nonempty), DROP old table, RENAME temp, commit.  The
result is the database visible after the call: the committed state after
`conn.commit()` on success, or after the `with conn:` rollback on failure. -/
def recreate_table_with_schema (db : DB) (t : String) (newCols : List ColSpec)
    (fp : FailPoint) : Except DB DB :=
  let tmp := t ++ "_new"
  match inject fp .atCreate ⟨db, db, false⟩ with
  | .error d => .error d
  | .ok c0 =>
  match execDDL c0 (createTableStmt tmp newCols) with
  | .error d => .error d
  | .ok c1 =>
    let oldCols := match getTable c1.current t with
      | some s => s.cols.map ColInfo.name
      | none => []
    let common := (newCols.map ColSpec.name).filter (fun n => decide (n ∈ oldCols))
    let afterCopy : Except DB Conn :=
      if common.isEmpty then .ok c1
      else
        match inject fp .atCopy c1 with
        | .error d => .error d
        | .ok c1' => execDML c1' (insertCopyStmt t tmp common)
    match afterCopy with
    | .error d => .error d
    | .ok c2 =>
    match inject fp .atDrop c2 with
    | .error d => .error d
    | .ok c2' =>
    match execDDL c2' (dropTableStmt t) with
    | .error d => .error d
    | .ok c3 =>
    match inject fp .atRename c3 with
    | .error d => .error d
    | .ok c3' =>
    match execDDL c3' (renameTableStmt tmp t) with
    | .error d => .error d
    | .ok c4 => .ok c4.current

/-- `get_table_info`: `PRAGMA table_info` rows, empty for a missing table. -/
def get_table_info (db : DB) (t : String) : List ColInfo :=
  match getTable db t with
  | some s => s.cols
  | none => []

/-- Error outcomes of the `/schema/drop` route. -/
inductive DropErr where
  | columnNotFound | migrationFailed
deriving DecidableEq, Repr

/-- The `/schema/drop` route: sanitize the requested name, rebuild the
`product` table without that column (the rebuild specs carry only name,
type and default), or flash `Column not found` when no column was removed.
The returned pair is the database the caller observes plus the error, if
any. -/
def drop_column (db : DB) (colRaw : String) : DB × Option DropErr :=
  let col := sanitize_identifier colRaw
  let old := get_table_info db "product"
  let newSpecs := (old.filter (fun ci => ci.name ≠ col)).map
    (fun ci => (⟨ci.name, ci.ctype, ci.dflt⟩ : ColSpec))
  if newSpecs.length = old.length then (db, some .columnNotFound)
  else
    match recreate_table_with_schema db "product" newSpecs .noFail with
    | .ok d => (d, none)
    | .error d => (d, some .migrationFailed)

/-- One row of `product_field_versions`. -/
structure VersionEntry where
  id : Nat
  productId : Int
  fieldName : String
  oldValue : Option String
  newValue : Option String
  changedAt : String
  changedBy : String
deriving DecidableEq, Repr

/-- The state the record accessor and the ledger operate on: the `product`
table plus the version ledger. -/
structure Catalog where
  table : Table
  ledger : List VersionEntry
deriving DecidableEq, Repr

/-- Python `str()` of the values that flow through the diff comparison:
`str(None) = "None"`, `str(int)` is its decimal rendering, `str` of a string
is itself, `str(float)` is the shortest-decimal rendering. -/
def pyStr : Value → String
  | .null => "None"
  | .intV i => toString i
  | .textV s => s
  | .realV q => renderReal q

/-- The canonicalization `record_field_versions` applies before insertion:
`None if v is None else str(v)`.  NULL is kept as NULL, everything else is
stored as its `str()` rendering (so the empty string stays the empty
string, distinct from NULL). -/
def storedVal : Value → Option String
  | .null => none
  | v => some (pyStr v)

/-- The id AUTOINCREMENT assigns next: strictly above every id ever used;
since nothing deletes from this table, that is one above the maximum. -/
def nextVersionId (l : List VersionEntry) : Nat :=
  l.foldr (fun e m => max e.id m) 0 + 1

/-- The entries one call to `record_field_versions` inserts, ids ascending
from `base`, all sharing the one `changed_at` timestamp taken at call
time. -/
def appendEntries (base : Nat) (pid : Int) (now by_ : String) :
    List (String × Value × Value) → List VersionEntry
  | [] => []
  | (f, o, n) :: rest =>
    ⟨base, pid, f, storedVal o, storedVal n, now, by_⟩ ::
      appendEntries (base + 1) pid now by_ rest

/-- `record_field_versions(product_id, diffs, changed_by)`: no-op on an
empty diff list, otherwise one INSERT per diff. -/
def record_field_versions (l : List VersionEntry) (pid : Int)
    (diffs : List (String × Value × Value)) (now by_ : String) : List VersionEntry :=
  if diffs.isEmpty then l
  else l ++ appendEntries (nextVersionId l) pid now by_ diffs

/-- `get_version_by_id`: `SELECT ... WHERE id=?`. -/
def get_version_by_id (l : List VersionEntry) (vid : Nat) : Option VersionEntry :=
  l.find? (fun e => e.id == vid)

/-- A ledger value (`str` or `None`) re-entering Python as a parameter. -/
def valOfOpt : Option String → Value
  | none => .null
  | some s => .textV s

/-- Declared type of a column, looked up by name (empty — BLOB affinity,
i.e. no coercion — when the name is not a column). -/
def colTypeOfCols (cols : List ColInfo) (field : String) : String :=
  match cols.find? (fun ci => ci.name == field) with
  | some ci => ci.ctype
  | none => ""

/-- Declared type of a column of a table. -/
def colTypeOf (t : Table) (field : String) : String :=
  colTypeOfCols t.cols field

/-- `UPDATE product SET {field} = ? WHERE id = ?`: every row whose `id`
column equals `pid` gets `field` replaced by the bound value *after* the
affinity coercion of the column's declared type (SQLite coerces bound
parameters on storage like any other insert); rows without that id and
pairs for other columns are untouched.  (Matching zero rows is not an
error.) -/
def updateField (t : Table) (pid : Int) (field : String) (v : Value) : Table :=
  { t with rows := t.rows.map (fun r =>
      if rowGet r "id" = .intV pid then
        r.map (fun p => if p.1 = field then
          (p.1, applyAffinity (affinityOf (colTypeOf t field)) v) else p)
      else r) }

/-- Failure modes of `rollback_version`: the `ValueError` for a missing
version id, and the SQLite `no such column` error raised by the UPDATE when
the entry's `field_name` is no longer a column of `product`. -/
inductive RollbackErr where
  | versionNotFound | fieldNoLongerExists
deriving DecidableEq, Repr

/-- `rollback_version(vid, performer)`: look the entry up, set the field on
the entry's record back to `old_value`, then append a forward entry
recording `(field, new, old)`.  The UPDATE interpolates the stored field
name; when that name is not a column of the current schema the statement
raises before anything is written, so neither rows nor ledger change. -/
def rollback_version (cat : Catalog) (vid : Nat) (now performer : String) :
    Except RollbackErr Catalog :=
  match get_version_by_id cat.ledger vid with
  | none => .error .versionNotFound
  | some v =>
    if v.fieldName ∈ cat.table.cols.map ColInfo.name then
      .ok { table := updateField cat.table v.productId v.fieldName (valOfOpt v.oldValue)
            ledger := record_field_versions cat.ledger v.productId
              [(v.fieldName, valOfOpt v.newValue, valOfOpt v.oldValue)] now performer }
    else .error .fieldNoLongerExists

/-- The `/rollback` route: it catches any exception from
`rollback_version` and flashes it, leaving the database as it was. -/
def rollback_route (cat : Catalog) (vid : Nat) (now performer : String) :
    Catalog × Option RollbackErr :=
  match rollback_version cat vid now performer with
  | .ok c => (c, none)
  | .error e => (cat, some e)

/-- Python `int(str)`: optional surrounding whitespace, optional sign, a
nonempty run of digits.  (Underscore digit grouping is not modelled.) -/
def pyInt (s : String) : Option Int :=
  let cs := (pyStrip s).toList
  let sgn : Int := match cs with
    | '-' :: _ => -1
    | _ => 1
  let ds := match cs with
    | '-' :: t => t
    | '+' :: t => t
    | t => t
  if ds ≠ [] ∧ ds.all Char.isDigit then some (sgn * digitsVal ds) else none

/-- Python `Decimal(str)` restricted to plain decimal literals: optional
sign, digits with an optional fractional part, at least one digit.  The
result is `(m, sc)` representing the exact value `m / 10 ^ sc`.
(Exponent notation and digit grouping are not modelled.) -/
def parseDecimal (s : String) : Option (Int × Nat) :=
  let cs := s.toList
  let sgn : Int := match cs with
    | '-' :: _ => -1
    | _ => 1
  let body := match cs with
    | '-' :: t => t
    | '+' :: t => t
    | t => t
  let intPart := body.takeWhile (fun c => c ≠ '.')
  match body.dropWhile (fun c => c ≠ '.') with
  | [] =>
    if intPart ≠ [] ∧ intPart.all Char.isDigit then
      some (sgn * digitsVal intPart, 0)
    else none
  | '.' :: frac =>
    if (intPart ++ frac) ≠ [] ∧ (intPart ++ frac).all Char.isDigit then
      some (sgn * digitsVal (intPart ++ frac), frac.length)
    else none
  | _ :: _ => none

/-- Round `a / b` (with `b > 0`) to the nearest integer, ties to even: the
rounding `Decimal.quantize(Decimal(1))` performs under the default context
(`ROUND_HALF_EVEN`). -/
def roundHalfEven (a b : Int) : Int :=
  if 2 * (a % b) < b then a / b
  else if b < 2 * (a % b) then a / b + 1
  else if (a / b) % 2 = 0 then a / b
  else a / b + 1

/-- The write-side monetary transform of `add_product` / `edit_product`:
`int((Decimal(price_raw) * 100).quantize(Decimal(1)))`; `Decimal` arithmetic
is exact, so this is half-even rounding of `100 * m / 10 ^ sc`. -/
def centsOfPrice (s : String) : Option Int :=
  (parseDecimal s).map (fun p => roundHalfEven (p.1 * 100) ((10 : Int) ^ p.2))

/-- Two-digit rendering of `n < 100`. -/
def twoDigits (n : Nat) : String :=
  if n < 10 then "0" ++ toString n else toString n

/-- The read-side rendering `f"{price_cents / 100:.2f}"`: the stored integer
divided by 100 printed with two decimals.  (For the magnitudes at play the
float division is exact enough that `%.2f` prints the exact two-decimal
expansion, which this integer computation produces directly.) -/
def renderCents (c : Int) : String :=
  (if c < 0 then "-" else "") ++ toString (c.natAbs / 100) ++ "." ++ twoDigits (c.natAbs % 100)

/-- `price_display` on the edit form: `"0.00"` for a NULL `price_cents`,
otherwise the two-decimal rendering. -/
def price_display : Option Int → String
  | none => "0.00"
  | some c => renderCents c

/-- What the fallback branch of the add/edit value loop assigns when the
form value is missing or empty: for a NOT NULL column without default a
type-appropriate zero (`0` for `INT`-ish types, `''` for `TEXT`-ish ones,
`None` otherwise), else `None`. -/
def fallbackValue (ci : ColInfo) : Value :=
  if ci.notnull ∧ ci.dflt = none then
    if strHasSub (pyUpper ci.ctype) "INT" then .intV 0
    else if strHasSub (pyUpper ci.ctype) "TEXT" then .textV ""
    else .null
  else .null

/-- The value loop shared by `add_product` and `edit_product`: walk the
non-`id` columns in schema order and build the `values` / `new_values` dict.
A `price_cents` column paired with a `price` form field goes through the
monetary transform; a nonempty form value for an `INT`-ish column goes
through `int()`; any other nonempty form value is kept as text; a missing
or empty form value takes the fallback.  `none` is the abort
(flash-and-redirect) the code performs on an invalid integer or price. -/
def buildNewValues (form : List (String × String)) :
    List ColInfo → Option (List (String × Value))
  | [] => some []
  | ci :: rest =>
    let head? : Option (String × Value) :=
      if ci.name = "price_cents" ∧ (alook form "price").isSome then
        (centsOfPrice (pyStrip ((alook form "price").getD ""))).map
          (fun c => ("price_cents", Value.intV c))
      else
        match alook form ci.name with
        | some val =>
          if val ≠ "" then
            if strHasSub (pyUpper ci.ctype) "INT" then
              (pyInt val).map (fun i => (ci.name, Value.intV i))
            else some (ci.name, .textV val)
          else some (ci.name, fallbackValue ci)
        | none => some (ci.name, fallbackValue ci)
    match head? with
    | none => none
    | some hv => (buildNewValues form rest).map (fun tl => hv :: tl)

/-- `SELECT * FROM product WHERE id = ?` returning the first match. -/
def findRow (t : Table) (pid : Int) : Option Row :=
  t.rows.find? (fun r => decide (rowGet r "id" = .intV pid))

/-- Applying `UPDATE product SET k1=?,k2=?,... WHERE id=?` to one row: each
column mentioned in the set list (keys sanitized, as in the generated SQL)
is replaced by the bound value after the affinity coercion of that column's
declared type. -/
def applySet (cols : List ColInfo) (kvs : List (String × Value)) (r : Row) : Row :=
  r.map (fun q => match alook kvs q.1 with
    | some v => (q.1, applyAffinity (affinityOf (colTypeOfCols cols q.1)) v)
    | none => q)

/-- POST handler of `edit_product`: read the current row, build the new
values for every non-`id` column, apply them in one UPDATE, then diff old
against new by `str()` rendering and record one version entry per differing
field.  `none` is the abort path (product missing, invalid integer or
price). -/
def edit_product_post (cat : Catalog) (pid : Int) (form : List (String × String))
    (now : String) : Option Catalog :=
  let colsForForm := cat.table.cols.filter (fun ci => ci.name ≠ "id")
  match findRow cat.table pid with
  | none => none
  | some current =>
    match buildNewValues form colsForForm with
    | none => none
    | some newValues =>
      let setPairs := newValues.map (fun p => (sanitize_identifier p.1, p.2))
      let t' := { cat.table with rows := cat.table.rows.map (fun r =>
          if rowGet r "id" = .intV pid then applySet cat.table.cols setPairs r
          else r) }
      let diffs := newValues.filterMap (fun p =>
          if pyStr (rowGet current p.1) ≠ pyStr p.2 then
            some (p.1, rowGet current p.1, p.2)
          else none)
      some { table := t'
             ledger := record_field_versions cat.ledger pid diffs now "edit" }

/-- The rowid SQLite assigns to a fresh INSERT into a table whose `id` is an
INTEGER PRIMARY KEY alias: one above the largest existing id. -/
def newRowId (t : Table) : Int :=
  (t.rows.foldr (fun r m => max (match rowGet r "id" with
    | .intV i => i
    | _ => 0) m) 0) + 1

/-- POST handler of `add_product`: build the values for every non-`id`
column, INSERT them (the new row carries the fresh id plus the sanitized
value keys), then record one creation entry per supplied field with
`old_value = None`. -/
def add_product_post (cat : Catalog) (form : List (String × String))
    (now : String) : Option (Catalog × Int) :=
  let colsForForm := cat.table.cols.filter (fun ci => ci.name ≠ "id")
  match buildNewValues form colsForForm with
  | none => none
  | some values =>
    let nid := newRowId cat.table
    let row : Row := ("id", Value.intV nid) ::
      values.map (fun p => (sanitize_identifier p.1,
        applyAffinity (affinityOf (colTypeOfCols cat.table.cols (sanitize_identifier p.1)))
          p.2))
    let diffs := values.map (fun p => (p.1, Value.null, p.2))
    some ({ table := { cat.table with rows := cat.table.rows ++ [row] }
            ledger := record_field_versions cat.ledger nid diffs now "create" },
          nid)

/-!
## Basic lemmas about the embedding
-/

theorem getTable_cons (m : String) (t : Table) (db : DB) (n : String) :
    getTable ((m, t) :: db) n = if m = n then some t else getTable db n := rfl

theorem delTable_cons (k : String) (tb : Table) (rest : DB) (n : String) :
    delTable ((k, tb) :: rest) n =
      if k = n then delTable rest n else (k, tb) :: delTable rest n := by
  by_cases hk : k = n <;> simp [delTable, List.filter_cons, hk]

theorem getTable_delTable (db : DB) (n m : String) :
    getTable (delTable db n) m = if m = n then none else getTable db m := by
  induction db with
  | nil => by_cases h : m = n <;> simp [delTable, getTable, h]
  | cons p rest ih =>
    obtain ⟨k, tb⟩ := p
    rw [delTable_cons]
    by_cases hk : k = n <;> by_cases hm : m = n <;> by_cases hkm : k = m <;>
      simp_all [getTable_cons]

theorem append_new_ne (t : String) : t ++ "_new" ≠ t := by
  intro h
  have hl := congrArg String.length h
  rw [String.length_append] at hl
  have h4 : ("_new" : String).length = 4 := rfl
  omega

theorem createTableStmt_eq_some {n : String} {specs : List ColSpec} {db db' : DB}
    (h : createTableStmt n specs db = some db') :
    db' = addTable db n ⟨specs.map specToInfo, []⟩ ∧ getTable db n = none ∧
      specs ≠ [] ∧ (specs.map ColSpec.name).Nodup := by
  unfold createTableStmt at h
  split_ifs at h with h1 h2 h3
  · cases h
    refine ⟨rfl, ?_, h1, h3⟩
    cases hg : getTable db n
    · rfl
    · rw [hg] at h2
      simp at h2

theorem record_field_versions_eq_append (l : List VersionEntry) (pid : Int)
    (diffs : List (String × Value × Value)) (now by_ : String) :
    record_field_versions l pid diffs now by_ =
      l ++ appendEntries (nextVersionId l) pid now by_ diffs := by
  cases diffs <;> simp [record_field_versions, appendEntries]

theorem appendEntries_length (base : Nat) (pid : Int) (now by_ : String)
    (ds : List (String × Value × Value)) :
    (appendEntries base pid now by_ ds).length = ds.length := by
  induction ds generalizing base with
  | nil => rfl
  | cons d t ih =>
    obtain ⟨f, o, n⟩ := d
    simp [appendEntries, ih]

theorem appendEntries_proj (base : Nat) (pid : Int) (now by_ : String)
    (ds : List (String × Value × Value)) :
    (appendEntries base pid now by_ ds).map (fun e => (e.fieldName, e.oldValue, e.newValue)) =
      ds.map (fun d => (d.1, storedVal d.2.1, storedVal d.2.2)) := by
  induction ds generalizing base with
  | nil => rfl
  | cons d t ih =>
    obtain ⟨f, o, n⟩ := d
    simp [appendEntries, ih]

theorem filterMap_ite {α β : Type} (p : α → Bool) (g : α → β) (l : List α) :
    (l.filterMap (fun a => if p a then some (g a) else none)) = (l.filter p).map g := by
  induction l with
  | nil => rfl
  | cons a t ih =>
    by_cases h : p a <;> simp [List.filterMap_cons, List.filter_cons, h, ih]

theorem storedVal_valOfOpt (o : Option String) : storedVal (valOfOpt o) = o := by
  cases o <;> rfl

theorem id_le_foldrMax (l : List VersionEntry) (e : VersionEntry) (he : e ∈ l) :
    e.id ≤ l.foldr (fun x m => max x.id m) 0 := by
  induction l with
  | nil => simp at he
  | cons a t ih =>
    rcases List.mem_cons.mp he with h | h
    · subst h
      simp
    · simp [le_max_of_le_right (ih h)]

theorem id_lt_nextVersionId (l : List VersionEntry) (e : VersionEntry) (he : e ∈ l) :
    e.id < nextVersionId l := by
  have := id_le_foldrMax l e he
  unfold nextVersionId
  omega

theorem get_version_by_id_append_fresh (l : List VersionEntry) (e : VersionEntry)
    (hfresh : ∀ x ∈ l, x.id ≠ e.id) :
    get_version_by_id (l ++ [e]) e.id = some e := by
  unfold get_version_by_id
  induction l with
  | nil =>
    rw [List.nil_append]
    exact List.find?_cons_of_pos [] (by simp)
  | cons a t ih =>
    have ha : a.id ≠ e.id := hfresh a (List.mem_cons_self a t)
    rw [List.cons_append, List.find?_cons_of_neg _ (by simp [ha])]
    exact ih (fun x hx => hfresh x (List.mem_cons_of_mem a hx))

theorem rowGet_map_set (r : Row) (fld : String) (v : Value)
    (h : fld ∈ r.map Prod.fst) :
    rowGet (r.map (fun p => if p.1 = fld then (p.1, v) else p)) fld = v := by
  induction r with
  | nil => simp at h
  | cons q t ih =>
    obtain ⟨qk, qv⟩ := q
    simp only [List.map_cons]
    by_cases hq : qk = fld
    · have hh : (if (qk, qv).1 = fld then ((qk, qv).1, v) else (qk, qv)) = (qk, v) := by
        simp [hq]
      rw [hh]
      simp [rowGet, alook, hq]
    · have hh : (if (qk, qv).1 = fld then ((qk, qv).1, v) else (qk, qv)) = (qk, qv) := by
        simp [hq]
      rw [hh]
      rw [List.map_cons, List.mem_cons] at h
      rcases h with h | h
      · exact absurd h.symm hq
      · simpa [rowGet, alook, hq] using ih h

theorem rowGet_map_set_ne (r : Row) (fld n : String) (v : Value) (h : fld ≠ n) :
    rowGet (r.map (fun p => if p.1 = fld then (p.1, v) else p)) n = rowGet r n := by
  induction r with
  | nil => rfl
  | cons q t ih =>
    obtain ⟨qk, qv⟩ := q
    simp only [List.map_cons]
    by_cases hq : qk = fld
    · have hh : (if (qk, qv).1 = fld then ((qk, qv).1, v) else (qk, qv)) = (qk, v) := by
        simp [hq]
      rw [hh]
      have hn : ¬ qk = n := by
        rw [hq]
        exact h
      simpa [rowGet, alook, hn] using ih
    · have hh : (if (qk, qv).1 = fld then ((qk, qv).1, v) else (qk, qv)) = (qk, qv) := by
        simp [hq]
      rw [hh]
      by_cases hn : qk = n
      · simp [rowGet, alook, hn]
      · simpa [rowGet, alook, hn] using ih

theorem keys_map_set (r : Row) (fld : String) (v : Value) :
    (r.map (fun p => if p.1 = fld then (p.1, v) else p)).map Prod.fst = r.map Prod.fst := by
  induction r with
  | nil => rfl
  | cons q t ih =>
    by_cases hq : q.1 = fld <;> simp [hq, ih]

theorem roundHalfEven_nearest (a b : Int) (hb : 0 < b) :
    -b ≤ 2 * (a - roundHalfEven a b * b) ∧ 2 * (a - roundHalfEven a b * b) ≤ b := by
  have hmod : 0 ≤ a % b := Int.emod_nonneg a (ne_of_gt hb)
  have hlt : a % b < b := Int.emod_lt_of_pos a hb
  have hdm := Int.ediv_add_emod a b
  have hc : b * (a / b) = a / b * b := mul_comm _ _
  have hr : a - a / b * b = a % b := by linarith
  have hr1 : a - (a / b + 1) * b = a % b - b := by
    have hx : (a / b + 1) * b = a / b * b + b := by ring
    linarith
  unfold roundHalfEven
  split_ifs with h1 h2 h3
  · rw [hr]
    constructor <;> linarith
  · rw [hr1]
    constructor <;> linarith
  · rw [hr]
    constructor <;> linarith
  · rw [hr1]
    constructor <;> linarith

/-!
## Concrete fixtures used by witnesses and counterexamples
-/

/-- A concrete `product` table: the default schema of the app (`id` primary
key plus `Vendor_name TEXT`) with one row. -/
def prodTable : Table :=
  ⟨[⟨"id", "INTEGER", false, none, true⟩, ⟨"Vendor_name", "TEXT", false, none, false⟩],
   [[("id", Value.intV 1), ("Vendor_name", Value.textV "acme")]]⟩

/-- A concrete database holding just the `product` table. -/
def prodDB : DB := [("product", prodTable)]

/-- A concrete catalog whose single row has a NULL `Vendor_name`. -/
def nullCat : Catalog :=
  ⟨⟨[⟨"id", "INTEGER", false, none, true⟩, ⟨"Vendor_name", "TEXT", false, none, false⟩],
    [[("id", Value.intV 1), ("Vendor_name", Value.null)]]⟩, []⟩

/-- A concrete catalog with a ledger entry for a field that was dropped from
the schema. -/
def droppedFieldCat : Catalog :=
  ⟨⟨[⟨"id", "INTEGER", false, none, true⟩], [[("id", Value.intV 1)]]⟩,
   [⟨1, 1, "color", some "red", some "blue", "t0", "web"⟩]⟩

/-!
## Claim theorems
-/

/-- C3: rolling back a ledger entry whose `fieldName` is absent from the
current schema of the product table is rejected (the UPDATE raises the
no-such-column error, surfaced here as `fieldNoLongerExists`) and mutates
nothing: the rows and the ledger the caller observes are exactly the ones
from before the call. -/
theorem c3_rollback_dropped_field_rejected (cat : Catalog) (vid : Nat)
    (now performer : String) (v : VersionEntry)
    (h1 : get_version_by_id cat.ledger vid = some v)
    (h2 : v.fieldName ∉ cat.table.cols.map ColInfo.name) :
    rollback_route cat vid now performer = (cat, some RollbackErr.fieldNoLongerExists) := by
  simp [rollback_route, rollback_version, h1, h2]

/-- C3 witness: a concrete catalog where the entry's field `color` is gone
from the schema. -/
theorem c3_rollback_dropped_field_rejected_witness :
    rollback_route droppedFieldCat 1 "t1" "web" =
      (droppedFieldCat, some RollbackErr.fieldNoLongerExists) :=
  c3_rollback_dropped_field_rejected droppedFieldCat 1 "t1" "web"
    ⟨1, 1, "color", some "red", some "blue", "t0", "web"⟩ rfl (by decide)

/-- C6 counterexample: the claim also asserts a `PrimaryKeyImmutable`
failure when the named column is the primary key, but no such check exists:
on a concrete database whose `id` column is the primary key, `drop_column`
succeeds, and `id` is gone from the schema afterwards (the rebuilt table
even loses the primary-key marking on the surviving columns). -/
theorem c6_drop_primary_key_not_rejected :
    ((get_table_info prodDB "product").map (fun ci => (ci.name, ci.pk)) =
      [("id", true), ("Vendor_name", false)]) ∧
    drop_column prodDB "id" =
      ([("product", ⟨[⟨"Vendor_name", "TEXT", false, none, false⟩],
        [[("Vendor_name", Value.textV "acme")]]⟩)], none) ∧
    "id" ∉ (get_table_info (drop_column prodDB "id").1 "product").map ColInfo.name := by
  refine ⟨rfl, rfl, by decide⟩

/-- C6 (amended): `drop_column` flashes `Column not found` and leaves the
database untouched whenever the (sanitized) requested name is not a column
of the current schema; there is no primary-key protection — dropping the
primary-key column proceeds like any other drop (see the counterexample). -/
theorem c6_drop_column_absent_is_column_not_found (db : DB) (colRaw : String)
    (h : sanitize_identifier colRaw ∉ (get_table_info db "product").map ColInfo.name) :
    drop_column db colRaw = (db, some DropErr.columnNotFound) := by
  have hall : ∀ ci ∈ get_table_info db "product",
      (decide (ci.name ≠ sanitize_identifier colRaw)) = true := by
    intro ci hci
    simp only [decide_eq_true_eq]
    intro heq
    exact h (heq ▸ List.mem_map_of_mem ColInfo.name hci)
  have hfil : (get_table_info db "product").filter
      (fun ci => decide (ci.name ≠ sanitize_identifier colRaw)) =
      get_table_info db "product" := List.filter_eq_self.mpr hall
  simp only [drop_column, hfil, List.length_map, if_pos rfl]
  simp

/-- C6 witness: requesting a drop of a column that does not exist. -/
theorem c6_drop_column_absent_is_column_not_found_witness :
    drop_column prodDB "nope" = (prodDB, some DropErr.columnNotFound) :=
  c6_drop_column_absent_is_column_not_found prodDB "nope" (by decide)

/-- C10: the update diff compares values by Python `str()`, under which a
stored NULL and the literal text `None` coincide: updating the NULL
`Vendor_name` to the string `"None"` changes the stored row but emits no
version entry (the ledger stays empty). -/
theorem c10_str_diff_conflates_null_and_none_text :
    edit_product_post nullCat 1 [("Vendor_name", "None")] "t1" =
      some ⟨⟨nullCat.table.cols, [[("id", Value.intV 1), ("Vendor_name", Value.textV "None")]]⟩,
        nullCat.ledger⟩ ∧
    rowGet [("id", Value.intV 1), ("Vendor_name", Value.null)] "Vendor_name" = Value.null ∧
    Value.textV "None" ≠ Value.null ∧
    pyStr Value.null = pyStr (Value.textV "None") := by
  exact ⟨rfl, rfl, by decide, rfl⟩

theorem filterMap_ite_prop {α β : Type} (P : α → Prop) [DecidablePred P]
    (g : α → β) (l : List α) :
    (l.filterMap (fun a => if P a then some (g a) else none)) =
      (l.filter (fun a => decide (P a))).map g := by
  induction l with
  | nil => rfl
  | cons a t ih =>
    by_cases h : P a <;> simp [List.filterMap_cons, List.filter_cons, h, ih]

/-- C5: a successful `edit_product` computes the new value for every
non-`id` column, then appends exactly one version entry per field whose
`str()` rendering differs from the stored one — in order, each entry
carrying that field's name and the canonicalized old and new values; fields
with equal renderings produce no entry. -/
theorem c5_update_version_completeness (cat : Catalog) (pid : Int)
    (form : List (String × String)) (now : String) (current : Row)
    (newValues : List (String × Value))
    (h1 : findRow cat.table pid = some current)
    (h2 : buildNewValues form (cat.table.cols.filter (fun ci => ci.name ≠ "id")) =
      some newValues) :
    ∃ cat' es, edit_product_post cat pid form now = some cat' ∧
      cat'.ledger = cat.ledger ++ es ∧
      es.length = newValues.countP
        (fun p => decide (pyStr (rowGet current p.1) ≠ pyStr p.2)) ∧
      es.map (fun e => (e.fieldName, e.oldValue, e.newValue)) =
        (newValues.filter (fun p => decide (pyStr (rowGet current p.1) ≠ pyStr p.2))).map
          (fun p => (p.1, storedVal (rowGet current p.1), storedVal p.2)) := by
  have hmain : edit_product_post cat pid form now = some
      { table := { cat.table with rows := cat.table.rows.map (fun r =>
          if rowGet r "id" = Value.intV pid then
            applySet cat.table.cols (newValues.map (fun p => (sanitize_identifier p.1, p.2))) r
          else r) }
        ledger := record_field_versions cat.ledger pid
          (newValues.filterMap (fun p =>
            if pyStr (rowGet current p.1) ≠ pyStr p.2 then
              some (p.1, rowGet current p.1, p.2)
            else none)) now "edit" } := by
    simp only [edit_product_post, h1, h2]
  refine ⟨_, appendEntries (nextVersionId cat.ledger) pid now "edit"
    (newValues.filterMap (fun p =>
      if pyStr (rowGet current p.1) ≠ pyStr p.2 then
        some (p.1, rowGet current p.1, p.2)
      else none)), hmain, ?_, ?_, ?_⟩
  · exact record_field_versions_eq_append _ _ _ _ _
  · rw [appendEntries_length, filterMap_ite_prop, List.length_map,
      List.countP_eq_length_filter]
  · rw [appendEntries_proj, filterMap_ite_prop, List.map_map]
    rfl

/-- C5 witness: updating the one-row catalog's `Vendor_name` from NULL to
`"x"` (one differing field). -/
theorem c5_update_version_completeness_witness :
    ∃ cat' es, edit_product_post nullCat 1 [("Vendor_name", "x")] "t1" = some cat' ∧
      cat'.ledger = nullCat.ledger ++ es ∧
      es.length = [("Vendor_name", Value.textV "x")].countP
        (fun p => decide (pyStr (rowGet [("id", Value.intV 1), ("Vendor_name", Value.null)] p.1) ≠
          pyStr p.2)) ∧
      es.map (fun e => (e.fieldName, e.oldValue, e.newValue)) =
        ([("Vendor_name", Value.textV "x")].filter
          (fun p => decide (pyStr (rowGet [("id", Value.intV 1), ("Vendor_name", Value.null)] p.1) ≠
            pyStr p.2))).map
          (fun p => (p.1, storedVal (rowGet [("id", Value.intV 1), ("Vendor_name", Value.null)] p.1),
            storedVal p.2)) :=
  c5_update_version_completeness nullCat 1 [("Vendor_name", "x")] "t1"
    [("id", Value.intV 1), ("Vendor_name", Value.null)]
    [("Vendor_name", Value.textV "x")] rfl rfl

/-- C8: the monetary convention — writing `"12.50"` to the cents column
stores `1250`, writing `"12.504"` stores `1250`, reading `1250` back renders
`"12.50"`, the value loop routes a `price` form field through this
transform, and in general the stored integer is half-even-nearest to 100
times the parsed decimal (within half a unit, scaled by `10 ^ sc`). -/
theorem c8_monetary_cents_convention :
    centsOfPrice "12.50" = some 1250 ∧
    centsOfPrice "12.504" = some 1250 ∧
    price_display (some 1250) = "12.50" ∧
    buildNewValues [("price", "12.50")] [⟨"price_cents", "INTEGER", false, none, false⟩] =
      some [("price_cents", Value.intV 1250)] ∧
    (∀ s m sc, parseDecimal s = some (m, sc) →
      centsOfPrice s = some (roundHalfEven (m * 100) ((10 : Int) ^ sc)) ∧
      -((10 : Int) ^ sc) ≤
        2 * (m * 100 - roundHalfEven (m * 100) ((10 : Int) ^ sc) * (10 : Int) ^ sc) ∧
      2 * (m * 100 - roundHalfEven (m * 100) ((10 : Int) ^ sc) * (10 : Int) ^ sc) ≤
        (10 : Int) ^ sc) := by
  refine ⟨rfl, rfl, rfl, rfl, ?_⟩
  intro s m sc hp
  have hb : (0 : Int) < (10 : Int) ^ sc := pow_pos (by norm_num) sc
  have hnear := roundHalfEven_nearest (m * 100) ((10 : Int) ^ sc) hb
  exact ⟨by simp [centsOfPrice, hp], hnear.1, hnear.2⟩

/-- C8 witness: the general rounding bound at the concrete input
`"12.504"`. -/
theorem c8_monetary_cents_convention_witness :
    centsOfPrice "12.504" = some (roundHalfEven (12504 * 100) ((10 : Int) ^ 3)) ∧
    -((10 : Int) ^ 3) ≤
      2 * (12504 * 100 - roundHalfEven (12504 * 100) ((10 : Int) ^ 3) * (10 : Int) ^ 3) ∧
    2 * (12504 * 100 - roundHalfEven (12504 * 100) ((10 : Int) ^ 3) * (10 : Int) ^ 3) ≤
      (10 : Int) ^ 3 :=
  c8_monetary_cents_convention.2.2.2.2 "12.504" 12504 3 rfl

/-- C9: the ledger is append-only — record creation, record update and
rollback each leave the previous ledger as a prefix and only ever add
entries (nothing is mutated or deleted), and the stored canonical values
keep NULL (`none`) distinct from the empty string. -/
theorem c9_ledger_append_only :
    (∀ cat pid form now cat', edit_product_post cat pid form now = some cat' →
      ∃ es, cat'.ledger = cat.ledger ++ es) ∧
    (∀ cat form now res, add_product_post cat form now = some res →
      ∃ es, res.1.ledger = cat.ledger ++ es) ∧
    (∀ cat vid now performer, ∃ es,
      (rollback_route cat vid now performer).1.ledger = cat.ledger ++ es) ∧
    storedVal Value.null = none ∧
    storedVal (Value.textV "") = some "" ∧
    (none : Option String) ≠ some "" := by
  refine ⟨?_, ?_, ?_, rfl, rfl, by decide⟩
  · intro cat pid form now cat' h
    cases hf : findRow cat.table pid with
    | none =>
      simp only [edit_product_post, hf] at h
      exact absurd h (by simp)
    | some current =>
      cases hb : buildNewValues form (cat.table.cols.filter (fun ci => ci.name ≠ "id")) with
      | none =>
        simp only [edit_product_post, hf, hb] at h
        exact absurd h (by simp)
      | some nv =>
        simp only [edit_product_post, hf, hb, Option.some.injEq] at h
        subst h
        exact ⟨_, record_field_versions_eq_append _ _ _ _ _⟩
  · intro cat form now res h
    cases hb : buildNewValues form (cat.table.cols.filter (fun ci => ci.name ≠ "id")) with
    | none =>
      simp only [add_product_post, hb] at h
      exact absurd h (by simp)
    | some values =>
      simp only [add_product_post, hb, Option.some.injEq] at h
      subst h
      exact ⟨_, record_field_versions_eq_append _ _ _ _ _⟩
  · intro cat vid now performer
    cases hv : get_version_by_id cat.ledger vid with
    | none =>
      have hr : rollback_route cat vid now performer =
          (cat, some RollbackErr.versionNotFound) := by
        simp [rollback_route, rollback_version, hv]
      exact ⟨[], by rw [hr]; simp⟩
    | some v =>
      by_cases hm : v.fieldName ∈ cat.table.cols.map ColInfo.name
      · have hr : rollback_route cat vid now performer =
            ({ table := updateField cat.table v.productId v.fieldName (valOfOpt v.oldValue)
               ledger := record_field_versions cat.ledger v.productId
                 [(v.fieldName, valOfOpt v.newValue, valOfOpt v.oldValue)] now performer },
             none) := by
          simp [rollback_route, rollback_version, hv, hm]
        rw [hr]
        exact ⟨_, record_field_versions_eq_append cat.ledger v.productId
          [(v.fieldName, valOfOpt v.newValue, valOfOpt v.oldValue)] now performer⟩
      · have hr : rollback_route cat vid now performer =
            (cat, some RollbackErr.fieldNoLongerExists) := by
          simp [rollback_route, rollback_version, hv, hm]
        exact ⟨[], by rw [hr]; simp⟩

/-- C9 witness: one concrete successful update extends the (empty) ledger
of the one-row catalog. -/
theorem c9_ledger_append_only_witness :
    ∃ es, (⟨⟨[⟨"id", "INTEGER", false, none, true⟩, ⟨"Vendor_name", "TEXT", false, none, false⟩],
        [[("id", Value.intV 1), ("Vendor_name", Value.textV "y")]]⟩,
      [⟨1, 1, "Vendor_name", none, some "y", "t9", "edit"⟩]⟩ : Catalog).ledger =
      nullCat.ledger ++ es :=
  c9_ledger_append_only.1 nullCat 1 [("Vendor_name", "y")] "t9" _ rfl

theorem execDDL_noTxn (committed current : DB) (stmt : DB → Option DB) (db' : DB)
    (h : stmt current = some db') :
    execDDL ⟨committed, current, false⟩ stmt = Except.ok ⟨db', db', false⟩ := by
  unfold execDDL
  rw [h]
  rfl

theorem execDDL_txn (committed current : DB) (stmt : DB → Option DB) (db' : DB)
    (h : stmt current = some db') :
    execDDL ⟨committed, current, true⟩ stmt = Except.ok ⟨committed, db', true⟩ := by
  unfold execDDL
  rw [h]
  rfl

theorem execDML_run (committed current : DB) (stmt : DB → Option DB) (db' : DB)
    (h : stmt current = some db') :
    execDML ⟨committed, current, false⟩ stmt = Except.ok ⟨committed, db', true⟩ := by
  unfold execDML
  rw [h]

theorem updateField_rowGet (tbl : Table) (pid : Int) (fld : String) (v : Value)
    (hkeys : ∀ r ∈ tbl.rows, fld ∈ r.map Prod.fst) :
    ∀ r ∈ (updateField tbl pid fld v).rows,
      rowGet r "id" = Value.intV pid →
      rowGet r fld = applyAffinity (affinityOf (colTypeOf tbl fld)) v := by
  intro r hr hid2
  unfold updateField at hr
  simp only [List.mem_map] at hr
  obtain ⟨r0, hr0, rfl⟩ := hr
  by_cases hm : rowGet r0 "id" = Value.intV pid
  · rw [if_pos hm]
    exact rowGet_map_set r0 fld _ (hkeys r0 hr0)
  · rw [if_neg hm] at hid2
    exact absurd hid2 hm

theorem updateField_keys (tbl : Table) (pid : Int) (fld : String) (v : Value)
    (hkeys : ∀ r ∈ tbl.rows, fld ∈ r.map Prod.fst) :
    ∀ r ∈ (updateField tbl pid fld v).rows, fld ∈ r.map Prod.fst := by
  intro r hr
  unfold updateField at hr
  simp only [List.mem_map] at hr
  obtain ⟨r0, hr0, rfl⟩ := hr
  by_cases hm : rowGet r0 "id" = Value.intV pid
  · rw [if_pos hm, keys_map_set]
    exact hkeys r0 hr0
  · rw [if_neg hm]
    exact hkeys r0 hr0

/-- A catalog whose `qty` column is INTEGER and stores the integer `7`,
with a ledger entry whose recorded old value is the non-canonical numeral
text `"007"`. -/
def affCat : Catalog :=
  ⟨⟨[⟨"id", "INTEGER", false, none, true⟩, ⟨"qty", "INTEGER", false, none, false⟩],
    [[("id", Value.intV 1), ("qty", Value.intV 7)]]⟩,
   [⟨1, 1, "qty", some "007", some "7", "t0", "web"⟩]⟩

/-- C4 counterexample: rollback does not restore the recorded old value
verbatim — the UPDATE binds the ledger's text `"007"` against the INTEGER
`qty` column, whose affinity canonicalizes it to the integer `7`: the field
ends up holding `7`, not the text `"007"` the entry recorded, and its
`str()` rendering `"7"` differs from the recorded `"007"`. -/
theorem c4_rollback_affinity_not_verbatim :
    rollback_route affCat 1 "t1" "web" =
      (⟨⟨affCat.table.cols, [[("id", Value.intV 1), ("qty", Value.intV 7)]]⟩,
        affCat.ledger ++ [⟨2, 1, "qty", some "7", some "007", "t1", "web"⟩]⟩, none) ∧
    valOfOpt (some "007") = Value.textV "007" ∧
    Value.intV 7 ≠ Value.textV "007" ∧
    pyStr (Value.intV 7) ≠ "007" := by
  refine ⟨rfl, rfl, by decide, by decide⟩

/-- C4 (amended): for a ledger entry `v` whose field still exists and whose
record currently holds `v.newValue`, rollback runs an UPDATE binding the
recorded old value, so the field ends up holding `v.oldValue` *after the
same column-affinity coercion as a normal update* (verbatim exactly when
the recorded text is a fixed point of that coercion — always the case for
TEXT columns, but a non-canonical numeral on an INTEGER/REAL column is
canonicalized, see the counterexample); one new entry is appended with
`oldValue = v.newValue` and `newValue = v.oldValue`, the earlier ledger
untouched, and rolling back that new entry restores the field to the
coerced `v.newValue`. -/
theorem c4_rollback_reversibility (cat : Catalog) (vid : Nat)
    (now performer now' performer' : String) (v : VersionEntry)
    (h1 : get_version_by_id cat.ledger vid = some v)
    (h2 : v.fieldName ∈ cat.table.cols.map ColInfo.name)
    (hkeys : ∀ r ∈ cat.table.rows, v.fieldName ∈ r.map Prod.fst)
    (_hcur : ∀ r ∈ cat.table.rows, rowGet r "id" = Value.intV v.productId →
      rowGet r v.fieldName = valOfOpt v.newValue) :
    ∃ cat₁, rollback_route cat vid now performer = (cat₁, none) ∧
      cat₁.ledger = cat.ledger ++
        [⟨nextVersionId cat.ledger, v.productId, v.fieldName, v.newValue, v.oldValue,
          now, performer⟩] ∧
      (∀ r ∈ cat₁.table.rows, rowGet r "id" = Value.intV v.productId →
        rowGet r v.fieldName =
          applyAffinity (affinityOf (colTypeOf cat.table v.fieldName))
            (valOfOpt v.oldValue)) ∧
      ∃ cat₂, rollback_route cat₁ (nextVersionId cat.ledger) now' performer' =
          (cat₂, none) ∧
        (∀ r ∈ cat₂.table.rows, rowGet r "id" = Value.intV v.productId →
          rowGet r v.fieldName =
            applyAffinity (affinityOf (colTypeOf cat.table v.fieldName))
              (valOfOpt v.newValue)) := by
  have hr1 : rollback_route cat vid now performer =
      ({ table := updateField cat.table v.productId v.fieldName (valOfOpt v.oldValue)
         ledger := record_field_versions cat.ledger v.productId
           [(v.fieldName, valOfOpt v.newValue, valOfOpt v.oldValue)] now performer }, none) := by
    simp [rollback_route, rollback_version, h1, h2]
  have hledeq : record_field_versions cat.ledger v.productId
      [(v.fieldName, valOfOpt v.newValue, valOfOpt v.oldValue)] now performer =
      cat.ledger ++ [⟨nextVersionId cat.ledger, v.productId, v.fieldName, v.newValue,
        v.oldValue, now, performer⟩] := by
    rw [record_field_versions_eq_append]
    simp [appendEntries, storedVal_valOfOpt]
  have hfind : get_version_by_id
      (cat.ledger ++ [⟨nextVersionId cat.ledger, v.productId, v.fieldName, v.newValue,
        v.oldValue, now, performer⟩]) (nextVersionId cat.ledger) =
      some ⟨nextVersionId cat.ledger, v.productId, v.fieldName, v.newValue,
        v.oldValue, now, performer⟩ :=
    get_version_by_id_append_fresh cat.ledger _
      (fun x hx => Nat.ne_of_lt (id_lt_nextVersionId cat.ledger x hx))
  have hrr2 : rollback_route
      ({ table := updateField cat.table v.productId v.fieldName (valOfOpt v.oldValue)
         ledger := record_field_versions cat.ledger v.productId
           [(v.fieldName, valOfOpt v.newValue, valOfOpt v.oldValue)] now performer } : Catalog)
      (nextVersionId cat.ledger) now' performer' =
      ({ table := updateField
            (updateField cat.table v.productId v.fieldName (valOfOpt v.oldValue))
            v.productId v.fieldName (valOfOpt v.newValue)
         ledger := record_field_versions (record_field_versions cat.ledger v.productId
             [(v.fieldName, valOfOpt v.newValue, valOfOpt v.oldValue)] now performer)
           v.productId [(v.fieldName, valOfOpt v.oldValue, valOfOpt v.newValue)]
           now' performer' }, none) := by
    simp [rollback_route, rollback_version, hledeq, hfind, updateField, h2]
  refine ⟨_, hr1, hledeq, updateField_rowGet _ _ _ _ hkeys, _, hrr2, ?_⟩
  exact updateField_rowGet _ _ _ _ (updateField_keys _ _ _ _ hkeys)

/-- A concrete catalog for the rollback-reversibility witness: one row whose
`Vendor_name` is `"new"`, with the matching ledger entry. -/
def rbCat : Catalog :=
  ⟨⟨[⟨"id", "INTEGER", false, none, true⟩, ⟨"Vendor_name", "TEXT", false, none, false⟩],
    [[("id", Value.intV 1), ("Vendor_name", Value.textV "new")]]⟩,
   [⟨1, 1, "Vendor_name", some "old", some "new", "t0", "web"⟩]⟩

/-- C4 witness: the double rollback on the concrete catalog. -/
theorem c4_rollback_reversibility_witness :
    ∃ cat₁, rollback_route rbCat 1 "t1" "web" = (cat₁, none) ∧
      cat₁.ledger = rbCat.ledger ++
        [⟨nextVersionId rbCat.ledger, 1, "Vendor_name", some "new", some "old",
          "t1", "web"⟩] ∧
      (∀ r ∈ cat₁.table.rows, rowGet r "id" = Value.intV 1 →
        rowGet r "Vendor_name" =
          applyAffinity (affinityOf (colTypeOf rbCat.table "Vendor_name"))
            (valOfOpt (some "old"))) ∧
      ∃ cat₂, rollback_route cat₁ (nextVersionId rbCat.ledger) "t2" "web" =
          (cat₂, none) ∧
        (∀ r ∈ cat₂.table.rows, rowGet r "id" = Value.intV 1 →
          rowGet r "Vendor_name" =
            applyAffinity (affinityOf (colTypeOf rbCat.table "Vendor_name"))
              (valOfOpt (some "new"))) :=
  c4_rollback_reversibility rbCat 1 "t1" "web" "t2" "web"
    ⟨1, 1, "Vendor_name", some "old", some "new", "t0", "web"⟩
    rfl (by decide) (by decide) (by decide)

/-- A one-column concrete database: renaming its only column gives a rebuild
whose copied-column intersection is empty. -/
def singleColDB : DB :=
  [("product", ⟨[⟨"id", "INTEGER", false, none, true⟩], [[("id", Value.intV 1)]]⟩)]

/-- C1 counterexample: the claim promises that when any rebuild step fails
the live table is exactly as before and no partial schema state is
observable.  On the one-column table, a modify-column rebuild (rename `id`
to `pid`) has an empty copied-column intersection, so no INSERT runs and no
implicit transaction is opened: the DROP of the live table autocommits, and
when the rename step then fails the database is left with *no* `product`
table at all (only the stray shadow table). -/
theorem c1_rebuild_failure_loses_table :
    recreate_table_with_schema singleColDB "product" [⟨"pid", "TEXT", none⟩]
      FailPoint.atRename =
      Except.error [("product_new", (⟨[⟨"pid", "TEXT", false, none, false⟩], []⟩ : Table))] ∧
    getTable [("product_new", (⟨[⟨"pid", "TEXT", false, none, false⟩], []⟩ : Table))]
      "product" = none ∧
    getTable singleColDB "product" =
      some ⟨[⟨"id", "INTEGER", false, none, true⟩], [[("id", Value.intV 1)]]⟩ :=
  ⟨rfl, rfl, rfl⟩

/-- C1 (amended): when a rebuild step fails, the live table's schema and
rows are unchanged from before the call *provided* the old and new column
sets intersect, or the failure is not at the rename step.  (The copy of a
nonempty intersection opens the implicit transaction that makes the DROP
and RENAME rollback-able; with an empty intersection the DROP autocommits
and a rename failure loses the table — the counterexample.  A stray
committed shadow table can remain in either case, so the claim's "no
partial schema state" does not hold verbatim.) -/
theorem c1_rebuild_failure_preserves_live_table (db : DB) (t : String)
    (newCols : List ColSpec) (fp : FailPoint) (d : DB)
    (herr : recreate_table_with_schema db t newCols fp = Except.error d)
    (hside : (∃ n, n ∈ newCols.map ColSpec.name ∧
        n ∈ (get_table_info db t).map ColInfo.name) ∨ fp ≠ FailPoint.atRename) :
    getTable d t = getTable db t := by
  have htne : t ++ "_new" ≠ t := append_new_ne t
  by_cases h1 : fp = FailPoint.atCreate
  · subst h1
    simp [recreate_table_with_schema, inject] at herr
    rw [← herr]
  · cases hcr : createTableStmt (t ++ "_new") newCols db with
    | none =>
      simp [recreate_table_with_schema, inject, h1, execDDL, hcr] at herr
      rw [← herr]
    | some db1 =>
      obtain ⟨hdb1eq, htmpnone, hspecne, hnd⟩ := createTableStmt_eq_some hcr
      subst hdb1eq
      have hkey : getTable (addTable db (t ++ "_new") ⟨newCols.map specToInfo, []⟩) t =
          getTable db t := by
        rw [addTable, getTable_cons, if_neg htne]
      have holdcols : (match getTable (addTable db (t ++ "_new")
            (⟨newCols.map specToInfo, []⟩ : Table)) t with
          | some s => s.cols.map ColInfo.name
          | none => []) = (get_table_info db t).map ColInfo.name := by
        rw [hkey]
        unfold get_table_info
        cases getTable db t <;> simp
      by_cases hcom : (newCols.map ColSpec.name).filter
          (fun n => decide (n ∈ (get_table_info db t).map ColInfo.name)) = []
      · -- empty intersection: the side condition forces fp ≠ atRename
        have hren : fp ≠ FailPoint.atRename := by
          rcases hside with ⟨n, hn1, hn2⟩ | hr
          · exfalso
            have : n ∈ (newCols.map ColSpec.name).filter
                (fun n => decide (n ∈ (get_table_info db t).map ColInfo.name)) :=
              List.mem_filter.mpr ⟨hn1, by simpa using hn2⟩
            rw [hcom] at this
            simp at this
          · exact hr
        have hi1 : ∀ c : Conn, inject fp FailPoint.atCreate c = Except.ok c := by
          intro c
          unfold inject
          rw [if_neg h1]
        have hi4 : ∀ c : Conn, inject fp FailPoint.atRename c = Except.ok c := by
          intro c
          unfold inject
          rw [if_neg hren]
        have hstep1 : execDDL ⟨db, db, false⟩ (createTableStmt (t ++ "_new") newCols) =
            Except.ok ⟨(addTable db (t ++ "_new") ⟨newCols.map specToInfo, []⟩), (addTable db (t ++ "_new") ⟨newCols.map specToInfo, []⟩), false⟩ :=
          execDDL_noTxn db db _ _ hcr
        by_cases h3 : fp = FailPoint.atDrop
        · have hi3 : ∀ c : Conn, inject fp FailPoint.atDrop c = Except.error c.committed := by
            intro c
            unfold inject
            rw [if_pos h3]
          simp only [recreate_table_with_schema, hi1, hstep1, holdcols, hcom,
            List.isEmpty_nil, eq_self_iff_true, if_true, hi3, Except.error.injEq] at herr
          rw [← herr]
          exact hkey
        · have hi3 : ∀ c : Conn, inject fp FailPoint.atDrop c = Except.ok c := by
            intro c
            unfold inject
            rw [if_neg h3]
          cases hdrop : dropTableStmt t (addTable db (t ++ "_new") ⟨newCols.map specToInfo, []⟩) with
          | none =>
            have hstep2 : execDDL ⟨(addTable db (t ++ "_new") ⟨newCols.map specToInfo, []⟩), (addTable db (t ++ "_new") ⟨newCols.map specToInfo, []⟩), false⟩ (dropTableStmt t) =
                Except.error (addTable db (t ++ "_new") ⟨newCols.map specToInfo, []⟩) := by
              unfold execDDL
              rw [hdrop]
            simp only [recreate_table_with_schema, hi1, hstep1, holdcols, hcom,
              List.isEmpty_nil, eq_self_iff_true, if_true, hi3, hstep2,
              Except.error.injEq] at herr
            rw [← herr]
            exact hkey
          | some db2 =>
            have hdb2eq : db2 = delTable (addTable db (t ++ "_new") ⟨newCols.map specToInfo, []⟩) t := by
              unfold dropTableStmt at hdrop
              cases hg : getTable (addTable db (t ++ "_new") ⟨newCols.map specToInfo, []⟩) t with
              | none => rw [hg] at hdrop; exact absurd hdrop (by simp)
              | some u => rw [hg] at hdrop; exact (Option.some.inj hdrop).symm
            subst hdb2eq
            have hstep2 : execDDL ⟨(addTable db (t ++ "_new") ⟨newCols.map specToInfo, []⟩), (addTable db (t ++ "_new") ⟨newCols.map specToInfo, []⟩), false⟩ (dropTableStmt t) =
                Except.ok ⟨delTable (addTable db (t ++ "_new") ⟨newCols.map specToInfo, []⟩) t, delTable (addTable db (t ++ "_new") ⟨newCols.map specToInfo, []⟩) t, false⟩ :=
              execDDL_noTxn _ _ _ _ hdrop
            have hrentmp : getTable (delTable (addTable db (t ++ "_new") ⟨newCols.map specToInfo, []⟩) t) (t ++ "_new") =
                some ⟨newCols.map specToInfo, []⟩ := by
              rw [getTable_delTable, if_neg htne, addTable, getTable_cons, if_pos rfl]
            have hrent : getTable (delTable (addTable db (t ++ "_new") ⟨newCols.map specToInfo, []⟩) t) t = none := by
              rw [getTable_delTable, if_pos rfl]
            have hrenok : renameTableStmt (t ++ "_new") t (delTable (addTable db (t ++ "_new") ⟨newCols.map specToInfo, []⟩) t) =
                some (addTable (delTable (delTable (addTable db (t ++ "_new") ⟨newCols.map specToInfo, []⟩) t) (t ++ "_new")) t
                  ⟨newCols.map specToInfo, []⟩) := by
              unfold renameTableStmt
              rw [hrentmp, hrent]
              rfl
            have hstep3 : execDDL ⟨delTable (addTable db (t ++ "_new") ⟨newCols.map specToInfo, []⟩) t, delTable (addTable db (t ++ "_new") ⟨newCols.map specToInfo, []⟩) t, false⟩
                (renameTableStmt (t ++ "_new") t) =
                Except.ok ⟨addTable (delTable (delTable (addTable db (t ++ "_new") ⟨newCols.map specToInfo, []⟩) t) (t ++ "_new")) t
                    ⟨newCols.map specToInfo, []⟩,
                  addTable (delTable (delTable (addTable db (t ++ "_new") ⟨newCols.map specToInfo, []⟩) t) (t ++ "_new")) t
                    ⟨newCols.map specToInfo, []⟩, false⟩ :=
              execDDL_noTxn _ _ _ _ hrenok
            simp only [recreate_table_with_schema, hi1, hstep1, holdcols, hcom,
              List.isEmpty_nil, eq_self_iff_true, if_true, hi3, hstep2, hi4,
              hstep3] at herr
            exact absurd herr (by simp)
      · -- nonempty intersection
        have hce : (((newCols.map ColSpec.name).filter (fun n => decide (n ∈ (get_table_info db t).map ColInfo.name)))).isEmpty = false := by
          cases hC : ((newCols.map ColSpec.name).filter (fun n => decide (n ∈ (get_table_info db t).map ColInfo.name))) with
          | nil => exact absurd hC hcom
          | cons a l => rfl
        have hi1 : ∀ c : Conn, inject fp FailPoint.atCreate c = Except.ok c := by
          intro c
          unfold inject
          rw [if_neg h1]
        have hstep1 : execDDL ⟨db, db, false⟩ (createTableStmt (t ++ "_new") newCols) =
            Except.ok ⟨(addTable db (t ++ "_new") ⟨newCols.map specToInfo, []⟩), (addTable db (t ++ "_new") ⟨newCols.map specToInfo, []⟩), false⟩ :=
          execDDL_noTxn db db _ _ hcr
        by_cases h2 : fp = FailPoint.atCopy
        · have hi2 : ∀ c : Conn, inject fp FailPoint.atCopy c = Except.error c.committed := by
            intro c
            unfold inject
            rw [if_pos h2]
          simp only [recreate_table_with_schema, hi1, hstep1, holdcols, hce,
            Bool.false_eq_true, if_false, hi2, Except.error.injEq] at herr
          rw [← herr]
          exact hkey
        · have hi2 : ∀ c : Conn, inject fp FailPoint.atCopy c = Except.ok c := by
            intro c
            unfold inject
            rw [if_neg h2]
          cases hins : insertCopyStmt t (t ++ "_new") ((newCols.map ColSpec.name).filter (fun n => decide (n ∈ (get_table_info db t).map ColInfo.name))) (addTable db (t ++ "_new") ⟨newCols.map specToInfo, []⟩) with
          | none =>
            have hstep2 : execDML ⟨(addTable db (t ++ "_new") ⟨newCols.map specToInfo, []⟩), (addTable db (t ++ "_new") ⟨newCols.map specToInfo, []⟩), false⟩
                (insertCopyStmt t (t ++ "_new") ((newCols.map ColSpec.name).filter (fun n => decide (n ∈ (get_table_info db t).map ColInfo.name)))) = Except.error (addTable db (t ++ "_new") ⟨newCols.map specToInfo, []⟩) := by
              unfold execDML
              rw [hins]
            simp only [recreate_table_with_schema, hi1, hstep1, holdcols, hce,
              Bool.false_eq_true, if_false, hi2, hstep2, Except.error.injEq] at herr
            rw [← herr]
            exact hkey
          | some cur2 =>
            have hstep2 : execDML ⟨(addTable db (t ++ "_new") ⟨newCols.map specToInfo, []⟩), (addTable db (t ++ "_new") ⟨newCols.map specToInfo, []⟩), false⟩
                (insertCopyStmt t (t ++ "_new") ((newCols.map ColSpec.name).filter (fun n => decide (n ∈ (get_table_info db t).map ColInfo.name)))) =
                Except.ok ⟨(addTable db (t ++ "_new") ⟨newCols.map specToInfo, []⟩), cur2, true⟩ :=
              execDML_run _ _ _ _ hins
            by_cases h3 : fp = FailPoint.atDrop
            · have hi3 : ∀ c : Conn, inject fp FailPoint.atDrop c =
                  Except.error c.committed := by
                intro c
                unfold inject
                rw [if_pos h3]
              simp only [recreate_table_with_schema, hi1, hstep1, holdcols, hce,
                Bool.false_eq_true, if_false, hi2, hstep2, hi3, Except.error.injEq] at herr
              rw [← herr]
              exact hkey
            · have hi3 : ∀ c : Conn, inject fp FailPoint.atDrop c = Except.ok c := by
                intro c
                unfold inject
                rw [if_neg h3]
              cases hdrop2 : dropTableStmt t cur2 with
              | none =>
                have hstep3 : execDDL ⟨(addTable db (t ++ "_new") ⟨newCols.map specToInfo, []⟩), cur2, true⟩ (dropTableStmt t) =
                    Except.error (addTable db (t ++ "_new") ⟨newCols.map specToInfo, []⟩) := by
                  unfold execDDL
                  rw [hdrop2]
                simp only [recreate_table_with_schema, hi1, hstep1, holdcols, hce,
                  Bool.false_eq_true, if_false, hi2, hstep2, hi3, hstep3,
                  Except.error.injEq] at herr
                rw [← herr]
                exact hkey
              | some cur3 =>
                have hstep3 : execDDL ⟨(addTable db (t ++ "_new") ⟨newCols.map specToInfo, []⟩), cur2, true⟩ (dropTableStmt t) =
                    Except.ok ⟨(addTable db (t ++ "_new") ⟨newCols.map specToInfo, []⟩), cur3, true⟩ :=
                  execDDL_txn _ _ _ _ hdrop2
                by_cases h4 : fp = FailPoint.atRename
                · have hi4 : ∀ c : Conn, inject fp FailPoint.atRename c =
                      Except.error c.committed := by
                    intro c
                    unfold inject
                    rw [if_pos h4]
                  simp only [recreate_table_with_schema, hi1, hstep1, holdcols, hce,
                    Bool.false_eq_true, if_false, hi2, hstep2, hi3, hstep3, hi4,
                    Except.error.injEq] at herr
                  rw [← herr]
                  exact hkey
                · have hi4 : ∀ c : Conn, inject fp FailPoint.atRename c = Except.ok c := by
                    intro c
                    unfold inject
                    rw [if_neg h4]
                  cases hren3 : renameTableStmt (t ++ "_new") t cur3 with
                  | none =>
                    have hstep4 : execDDL ⟨(addTable db (t ++ "_new") ⟨newCols.map specToInfo, []⟩), cur3, true⟩
                        (renameTableStmt (t ++ "_new") t) = Except.error (addTable db (t ++ "_new") ⟨newCols.map specToInfo, []⟩) := by
                      unfold execDDL
                      rw [hren3]
                    simp only [recreate_table_with_schema, hi1, hstep1, holdcols, hce,
                      Bool.false_eq_true, if_false, hi2, hstep2, hi3, hstep3, hi4,
                      hstep4, Except.error.injEq] at herr
                    rw [← herr]
                    exact hkey
                  | some cur4 =>
                    have hstep4 : execDDL ⟨(addTable db (t ++ "_new") ⟨newCols.map specToInfo, []⟩), cur3, true⟩
                        (renameTableStmt (t ++ "_new") t) =
                        Except.ok ⟨(addTable db (t ++ "_new") ⟨newCols.map specToInfo, []⟩), cur4, true⟩ :=
                      execDDL_txn _ _ _ _ hren3
                    simp only [recreate_table_with_schema, hi1, hstep1, holdcols, hce,
                      Bool.false_eq_true, if_false, hi2, hstep2, hi3, hstep3, hi4,
                      hstep4] at herr
                    exact absurd herr (by simp)


/-- C1 witness: a failure injected at the drop step of a drop-column rebuild
(nonempty intersection) leaves the `product` table as it was — only the
committed shadow table remains next to it. -/
theorem c1_rebuild_failure_preserves_live_table_witness :
    getTable [("product_new", (⟨[⟨"Vendor_name", "TEXT", false, none, false⟩], []⟩ : Table)),
      ("product", prodTable)] "product" = getTable prodDB "product" :=
  c1_rebuild_failure_preserves_live_table prodDB "product"
    [⟨"Vendor_name", "TEXT", none⟩] FailPoint.atDrop _ rfl
    (Or.inl ⟨"Vendor_name", by decide, by decide⟩)
